import Mathlib

/-!
Shallow embedding of `src/UpdateList.py`.

The script defines two filesystem operations:

* `copy_dir(src, dst, exclude=None)` — wraps `shutil.copytree(src, dst,
  ignore=ignore)` in a `try`/`except Exception` that prints
  `Failed to copy: {src};\n{ex}`; the `ignore` callback skips an entry when
  `os.path.relpath(os.path.join(path, name), src) in exclude or name in exclude`.
* `clear_dir(path, keep)` — runs `shutil.rmtree(os.path.join(path, item), True)`
  for every `item` of `os.listdir(path)` with `item not in keep`.

The embedding models a directory tree as an inductive `Entry`; paths inside a
tree are lists of component names, rendered with `/` separators by `relStr`
(matching `os.path.relpath` on POSIX).  Environment failures are abstract
oracles: `failAt` says which source files fail to copy (`shutil.copytree`
collects such per-file errors and raises `shutil.Error` at the end), and
`fail` says which directory deletions fail (`shutil.rmtree` with
`ignore_errors=True` swallows such failures).  Python exceptions become the
`Option String` / `Except String` error channels; `print` output becomes an
explicit log list.
-/

namespace UpdateList

/-- A filesystem entry: a regular file with its content, or a directory with
an ordered listing of named children. -/
inductive Entry where
  | file (content : String)
  | dir (children : List (String × Entry))

abbrev Listing := List (String × Entry)

/-- Render a relative path (list of components) with `/` separators, as
`os.path.relpath` does on POSIX. -/
def relStr : List String → String
  | [] => ""
  | [n] => n
  | n :: rest => n ++ "/" ++ relStr rest

/-- The skip test of the `ignore` callback (src/UpdateList.py line 7):
`os.path.relpath(os.path.join(path, name), src) in exclude or name in exclude`,
where `rel` is the path of the directory being walked relative to `src`. -/
def ignoreHit (exclude : List String) (rel : List String) (name : String) : Bool :=
  decide (relStr (rel ++ [name]) ∈ exclude) || decide (name ∈ exclude)

/-- The `ignore` callback itself (src/UpdateList.py lines 6-7): from the names
of one visited directory, the sublist to skip. -/
def ignore (exclude : List String) (rel : List String) (names : List String) : List String :=
  names.filter (fun name => ignoreHit exclude rel name)

/-- Error text for a file whose copy fails (one entry of the error list that
`shutil.copytree` accumulates). -/
def errMsg (p : List String) : String :=
  "[Errno 13] Permission denied: " ++ relStr p

/-- The recursive walk of `shutil.copytree` over the children of one source
directory: entries named by the `ignore` callback are skipped (files not
copied, directories not descended into); non-skipped files are copied unless
the `failAt` oracle fails them, in which case an error is recorded and the
walk continues; non-skipped directories are recreated and walked recursively.
Returns the copied listing and the accumulated error list. -/
def copyListing (failAt : List String → Bool) (exclude : List String) :
    List String → Listing → Listing × List String
  | _, [] => ([], [])
  | rel, (name, Entry.file s) :: rest =>
    let tail := copyListing failAt exclude rel rest
    if ignoreHit exclude rel name then tail
    else if failAt (rel ++ [name]) then (tail.1, errMsg (rel ++ [name]) :: tail.2)
    else ((name, Entry.file s) :: tail.1, tail.2)
  | rel, (name, Entry.dir cs) :: rest =>
    let tail := copyListing failAt exclude rel rest
    if ignoreHit exclude rel name then tail
    else
      let sub := copyListing failAt exclude (rel ++ [name]) cs
      ((name, Entry.dir sub.1) :: tail.1, sub.2 ++ tail.2)

/-- The copy of a single non-skipped entry sitting at relative path `rel`
(a file keeps its content; a directory is walked by `copyListing`). -/
def copyEntry (failAt : List String → Bool) (exclude : List String)
    (rel : List String) : Entry → Entry
  | Entry.file s => Entry.file s
  | Entry.dir cs => Entry.dir (copyListing failAt exclude rel cs).1

/-- The `failAt` oracle of an environment where no individual copy fails. -/
def noFail : List String → Bool := fun _ => false

def fileNotFoundMsg (p : String) : String :=
  "[Errno 2] No such file or directory: " ++ p

def notADirMsg (p : String) : String :=
  "[Errno 20] Not a directory: " ++ p

def fileExistsMsg (p : String) : String :=
  "[Errno 17] File exists: " ++ p

/-- `shutil.copytree(src, dst, ignore=ignore)`: first `os.scandir(src)` (so a
missing or non-directory `src` raises before anything is created), then
`os.makedirs(dst)` (raising `FileExistsError` when `dst` exists, leaving it
unchanged), then the recursive walk; per-file errors collected during the walk
are raised as one `shutil.Error` at the end, after the partial copy is in
place.  Returns the state at `dst` afterwards and the raised exception text,
if any. -/
def copytree (failAt : List String → Bool) (exclude : List String)
    (src dst : String) (srcEntry dstEntry : Option Entry) :
    Option Entry × Option String :=
  match srcEntry with
  | none => (dstEntry, some (fileNotFoundMsg src))
  | some (Entry.file _) => (dstEntry, some (notADirMsg src))
  | some (Entry.dir cs) =>
    match dstEntry with
    | some old => (some old, some (fileExistsMsg dst))
    | none =>
      let r := copyListing failAt exclude [] cs
      if r.2.isEmpty then (some (Entry.dir r.1), none)
      else (some (Entry.dir r.1), some (String.intercalate ", " r.2))

/-- `copy_dir` (src/UpdateList.py lines 2-12): normalises `exclude` with
`set(exclude or [])`, prints `Copying: {src}`, runs `copytree`, and catches
any exception, printing `Failed to copy: {src};\n{ex}`.  Returns the state at
`dst` afterwards and the printed log lines; there is no exception channel
because the `except Exception` clause swallows every failure. -/
def copy_dir (failAt : List String → Bool) (src dst : String)
    (srcEntry dstEntry : Option Entry) (exclude : Option (List String)) :
    Option Entry × List String :=
  let excl := exclude.getD []
  let r := copytree failAt excl src dst srcEntry dstEntry
  match r.2 with
  | none => (r.1, ["Copying: " ++ src])
  | some ex => (r.1, ["Copying: " ++ src, "Failed to copy: " ++ src ++ ";\n" ++ ex])

/-- Whether `shutil.rmtree(os.path.join(path, name), True)` removes the entry:
a directory is removed unless the `fail` oracle fails the deletion; a regular
file is never removed, because `rmtree` raises `NotADirectoryError` on it and
`ignore_errors=True` swallows the error, leaving the file in place. -/
def rmtreeRemoves (fail : String → Bool) (name : String) : Entry → Bool
  | Entry.file _ => false
  | Entry.dir _ => !(fail name)

/-- `clear_dir` (src/UpdateList.py lines 14-16): `os.listdir(path)` raises
`FileNotFoundError` on a missing path and `NotADirectoryError` on a file
(neither is caught anywhere in the function); on a directory, every child
whose name is not in `keep` gets a best-effort `rmtree`.  The function prints
nothing, so its log component is always empty. -/
def clear_dir (fail : String → Bool) (entry : Option Entry) (keep : List String) :
    Except String (Option Entry) × List String :=
  match entry with
  | none => (Except.error "FileNotFoundError", [])
  | some (Entry.file _) => (Except.error "NotADirectoryError", [])
  | some (Entry.dir children) =>
    (Except.ok (some (Entry.dir (children.filter (fun c =>
        decide (c.1 ∈ keep) || !(rmtreeRemoves fail c.1 c.2))))), [])

/-- Resolve a relative path inside a tree: follow the first child matching
each component. -/
def resolve : Entry → List String → Option Entry
  | e, [] => some e
  | Entry.file _, _ :: _ => none
  | Entry.dir cs, n :: p =>
    match cs.find? (fun c => c.1 == n) with
    | none => none
    | some c => resolve c.2 p

/-- Resolve a relative path at a location that may not exist at all. -/
def resolveIn (root : Option Entry) (p : List String) : Option Entry :=
  match root with
  | none => none
  | some e => resolve e p

/-! ### Helper lemmas about the copy walk -/

/-- In an environment where no individual file copy fails, the walk collects
no errors. -/
theorem copyListing_errs_noFail (exclude : List String) :
    ∀ (rel : List String) (l : Listing), (copyListing noFail exclude rel l).2 = [] := by
  intro rel l
  induction rel, l using copyListing.induct noFail exclude
  all_goals simp_all [copyListing, noFail]

/-- Unfolding: a skipped entry contributes nothing. -/
theorem copyListing_cons_skip (failAt : List String → Bool) (exclude rel : List String)
    (name : String) (e : Entry) (rest : Listing)
    (h : ignoreHit exclude rel name = true) :
    copyListing failAt exclude rel ((name, e) :: rest)
      = copyListing failAt exclude rel rest := by
  cases e <;> simp [copyListing, h]

/-- Unfolding: a non-skipped file whose copy succeeds is prepended. -/
theorem copyListing_cons_file (failAt : List String → Bool) (exclude rel : List String)
    (name s : String) (rest : Listing)
    (h : ignoreHit exclude rel name = false) (hf : failAt (rel ++ [name]) = false) :
    copyListing failAt exclude rel ((name, Entry.file s) :: rest)
      = ((name, Entry.file s) :: (copyListing failAt exclude rel rest).1,
         (copyListing failAt exclude rel rest).2) := by
  simp [copyListing, h, hf]

/-- Unfolding: a non-skipped file whose copy fails is dropped and its error
recorded. -/
theorem copyListing_cons_file_fail (failAt : List String → Bool) (exclude rel : List String)
    (name s : String) (rest : Listing)
    (h : ignoreHit exclude rel name = false) (hf : failAt (rel ++ [name]) = true) :
    copyListing failAt exclude rel ((name, Entry.file s) :: rest)
      = ((copyListing failAt exclude rel rest).1,
         errMsg (rel ++ [name]) :: (copyListing failAt exclude rel rest).2) := by
  simp [copyListing, h, hf]

/-- Unfolding: a non-skipped directory is recreated and walked recursively. -/
theorem copyListing_cons_dir (failAt : List String → Bool) (exclude rel : List String)
    (name : String) (cs rest : Listing)
    (h : ignoreHit exclude rel name = false) :
    copyListing failAt exclude rel ((name, Entry.dir cs) :: rest)
      = ((name, Entry.dir (copyListing failAt exclude (rel ++ [name]) cs).1)
          :: (copyListing failAt exclude rel rest).1,
         (copyListing failAt exclude (rel ++ [name]) cs).2
           ++ (copyListing failAt exclude rel rest).2) := by
  simp [copyListing, h]

/-- Every entry of the copied listing comes from a non-skipped source entry
of the same name, transformed by `copyEntry`. -/
theorem copyListing_mem (failAt : List String → Bool) (exclude : List String) :
    ∀ (rel : List String) (l : Listing) (c : String × Entry),
      c ∈ (copyListing failAt exclude rel l).1 →
      ∃ e0, (c.1, e0) ∈ l ∧ ignoreHit exclude rel c.1 = false
        ∧ c.2 = copyEntry failAt exclude (rel ++ [c.1]) e0 := by
  intro rel l
  induction rel, l using copyListing.induct failAt exclude with
  | case1 rel =>
    intro c hc
    simp [copyListing] at hc
  | case2 rel name s rest hhit ih =>
    intro c hc
    rw [copyListing_cons_skip failAt exclude rel name _ rest hhit] at hc
    obtain ⟨e0, h1, h2, h3⟩ := ih c hc
    exact ⟨e0, List.mem_cons_of_mem _ h1, h2, h3⟩
  | case3 rel name s rest hhit hfail ih =>
    intro c hc
    rw [Bool.not_eq_true] at hhit
    rw [copyListing_cons_file_fail failAt exclude rel name s rest hhit hfail] at hc
    obtain ⟨e0, h1, h2, h3⟩ := ih c hc
    exact ⟨e0, List.mem_cons_of_mem _ h1, h2, h3⟩
  | case4 rel name s rest hhit hfail ih =>
    intro c hc
    rw [Bool.not_eq_true] at hhit hfail
    rw [copyListing_cons_file failAt exclude rel name s rest hhit hfail] at hc
    rcases List.mem_cons.1 hc with rfl | hc
    · exact ⟨Entry.file s, List.mem_cons_self _ _, hhit, by simp [copyEntry]⟩
    · obtain ⟨e0, h1, h2, h3⟩ := ih c hc
      exact ⟨e0, List.mem_cons_of_mem _ h1, h2, h3⟩
  | case5 rel name cs rest hhit ih =>
    intro c hc
    rw [copyListing_cons_skip failAt exclude rel name _ rest hhit] at hc
    obtain ⟨e0, h1, h2, h3⟩ := ih c hc
    exact ⟨e0, List.mem_cons_of_mem _ h1, h2, h3⟩
  | case6 rel name cs rest hhit ih ihsub =>
    intro c hc
    rw [Bool.not_eq_true] at hhit
    rw [copyListing_cons_dir failAt exclude rel name cs rest hhit] at hc
    rcases List.mem_cons.1 hc with rfl | hc
    · exact ⟨Entry.dir cs, List.mem_cons_self _ _, hhit, by simp [copyEntry]⟩
    · obtain ⟨e0, h1, h2, h3⟩ := ih c hc
      exact ⟨e0, List.mem_cons_of_mem _ h1, h2, h3⟩

/-- For a name the `ignore` callback does not skip at this level, looking it
up in the copied listing is looking it up in the source listing and copying
what is found (environment without copy failures). -/
theorem copyListing_find (exclude : List String) (rel : List String) (n : String)
    (hn : ignoreHit exclude rel n = false) :
    ∀ l : Listing,
      (copyListing noFail exclude rel l).1.find? (fun c => c.1 == n)
        = (l.find? (fun c => c.1 == n)).map
            (fun c => (c.1, copyEntry noFail exclude (rel ++ [c.1]) c.2)) := by
  intro l
  induction l with
  | nil => simp [copyListing]
  | cons c rest ih =>
    obtain ⟨name, e⟩ := c
    by_cases hhit : ignoreHit exclude rel name = true
    · have hne : (name == n) = false := by
        rcases h : name == n with _ | _
        · rfl
        · exact absurd hn (by rw [← eq_of_beq h]; simp [hhit])
      rw [copyListing_cons_skip noFail exclude rel name e rest hhit]
      rw [List.find?_cons_of_neg _ (by simp [hne])]
      exact ih
    · rw [Bool.not_eq_true] at hhit
      cases e with
      | file s =>
        rw [copyListing_cons_file noFail exclude rel name s rest hhit rfl]
        rcases h : name == n with _ | _
        · rw [List.find?_cons_of_neg _ (by simp [h]),
            List.find?_cons_of_neg _ (by simp [h])]
          exact ih
        · rw [List.find?_cons_of_pos _ (by simp [h]),
            List.find?_cons_of_pos _ (by simp [h])]
          simp [copyEntry]
      | dir cs =>
        rw [copyListing_cons_dir noFail exclude rel name cs rest hhit]
        rcases h : name == n with _ | _
        · rw [List.find?_cons_of_neg _ (by simp [h]),
            List.find?_cons_of_neg _ (by simp [h])]
          exact ih
        · rw [List.find?_cons_of_pos _ (by simp [h]),
            List.find?_cons_of_pos _ (by simp [h])]
          simp [copyEntry]

/-- Unfolding of `resolve` at a directory and a non-empty path. -/
theorem resolve_dir_cons (l : Listing) (n : String) (p : List String) :
    resolve (Entry.dir l) (n :: p)
      = match l.find? (fun c => c.1 == n) with
        | none => none
        | some c => resolve c.2 p := rfl

theorem resolve_dir_cons_none (l : Listing) (n : String) (p : List String)
    (h : l.find? (fun c => c.1 == n) = none) :
    resolve (Entry.dir l) (n :: p) = none := by
  rw [resolve_dir_cons, h]

theorem resolve_dir_cons_some (l : Listing) (n : String) (p : List String)
    (c : String × Entry) (h : l.find? (fun c => c.1 == n) = some c) :
    resolve (Entry.dir l) (n :: p) = resolve c.2 p := by
  rw [resolve_dir_cons, h]

/-- Completeness of the walk: a source file whose path components are never
skipped is present in the copy with identical content (environment without
copy failures). -/
theorem resolve_copyListing (exclude : List String) :
    ∀ (p rel : List String) (l : Listing) (s : String),
      resolve (Entry.dir l) p = some (Entry.file s) →
      (∀ i (h : i < p.length), ignoreHit exclude (rel ++ p.take i) p[i] = false) →
      resolve (Entry.dir (copyListing noFail exclude rel l).1) p
        = some (Entry.file s) := by
  intro p
  induction p with
  | nil =>
    intro rel l s h _
    simp [resolve] at h
  | cons n p ih =>
    intro rel l s hres hskip
    have hn : ignoreHit exclude rel n = false := by simpa using hskip 0 (by simp)
    cases hfind : l.find? (fun c => c.1 == n) with
    | none =>
      rw [resolve_dir_cons_none l n p hfind] at hres
      exact absurd hres (by simp)
    | some c =>
      rw [resolve_dir_cons_some l n p c hfind] at hres
      have hfind2 : (copyListing noFail exclude rel l).1.find? (fun c => c.1 == n)
          = some (c.1, copyEntry noFail exclude (rel ++ [c.1]) c.2) := by
        rw [copyListing_find exclude rel n hn l, hfind]
        rfl
      rw [resolve_dir_cons_some _ n p _ hfind2]
      have hc1 : c.1 = n := by simpa using List.find?_some hfind
      subst hc1
      cases hce : c.2 with
      | file s2 =>
        rw [hce] at hres
        cases p with
        | nil =>
          simp only [resolve, Option.some.injEq] at hres
          simp [hce, copyEntry, resolve, hres]
        | cons m q => simp [resolve] at hres
      | dir cs0 =>
        rw [hce] at hres
        simp only [hce, copyEntry]
        have hres2 : resolve (Entry.dir cs0) p = some (Entry.file s) := by
          simpa [resolve] using hres
        apply ih (rel ++ [c.1]) cs0 s hres2
        intro i h
        have h2 := hskip (i + 1) (by simpa using h)
        simp only [List.take_succ_cons, List.getElem_cons_succ] at h2
        rw [List.append_cons] at h2
        exact h2

/-- Soundness of the walk: every path that resolves inside the copied tree
was skipped at none of its components. -/
theorem copied_not_excluded (failAt : List String → Bool) (exclude : List String) :
    ∀ (p rel : List String) (l : Listing) (e : Entry),
      resolve (Entry.dir (copyListing failAt exclude rel l).1) p = some e →
      ∀ i (h : i < p.length), ignoreHit exclude (rel ++ p.take i) p[i] = false := by
  intro p
  induction p with
  | nil =>
    intro rel l e _ i h
    simp at h
  | cons n p ih =>
    intro rel l e hres i h
    cases hfind : (copyListing failAt exclude rel l).1.find? (fun c => c.1 == n) with
    | none =>
      rw [resolve_dir_cons_none _ n p hfind] at hres
      exact absurd hres (by simp)
    | some c =>
      rw [resolve_dir_cons_some _ n p c hfind] at hres
      have hmem := List.mem_of_find?_eq_some hfind
      have hc1 : c.1 = n := by simpa using List.find?_some hfind
      obtain ⟨e0, hmem0, hhit, he⟩ := copyListing_mem failAt exclude rel l c hmem
      cases i with
      | zero => simpa [hc1] using hhit
      | succ j =>
        have hj : j < p.length := by simpa using h
        rw [he] at hres
        cases e0 with
        | file s =>
          cases p with
          | nil => simp at hj
          | cons m q => simp [copyEntry, resolve] at hres
        | dir cs0 =>
          have hres2 : resolve (Entry.dir (copyListing failAt exclude
              (rel ++ [c.1]) cs0).1) p = some e := by
            simpa [copyEntry] using hres
          have hcall := ih (rel ++ [c.1]) cs0 e hres2 j hj
          rw [hc1] at hcall
          simp only [List.take_succ_cons, List.getElem_cons_succ]
          rw [List.append_cons]
          exact hcall

/-- With no copy failures, `copy_dir` onto a fresh destination succeeds: the
copied tree is installed at `dst` and only the start line is printed. -/
theorem copy_dir_ok (exclude : List String) (src dst : String) (l : Listing) :
    copy_dir noFail src dst (some (Entry.dir l)) none (some exclude)
      = (some (Entry.dir (copyListing noFail exclude [] l).1), ["Copying: " ++ src]) := by
  have h := copyListing_errs_noFail exclude [] l
  simp [copy_dir, copytree, h]

/-! ### The claims -/

/-- Claim C1 (code bug): the specification says `clear(path, keep)` deletes
every non-kept direct child, regular files and directories alike, and the
script's own keep-set protects plain files, so deletion of files is clearly
intended.  But the code deletes each child with `shutil.rmtree(..., True)`,
which raises `NotADirectoryError` on a regular file and, with
`ignore_errors=True`, swallows it — so non-kept regular files survive.  At
the spec's own scenario (`keep = {"a.txt"}`; children `a.txt`, `b.txt`,
`sub/`), `b.txt` remains although only `a.txt` should. -/
theorem clear_dir_leaves_regular_file :
    clear_dir (fun _ => false)
      (some (Entry.dir [("a.txt", Entry.file "A"), ("b.txt", Entry.file "B"),
        ("sub", Entry.dir [])]))
      ["a.txt"]
    = (Except.ok (some (Entry.dir [("a.txt", Entry.file "A"),
        ("b.txt", Entry.file "B")])), []) := rfl

/-- Claim C2 as frozen fails: with `exclude = {"bin","obj"}`, the file
`bin/x.bin` has a name (`x.bin`) and a relative path (`bin/x.bin`) that are
both absent from `exclude`, yet after a successful copy it is absent from the
destination, because its parent directory `bin` was skipped. -/
theorem copy_dir_excluded_parent_cex :
    ¬ ("x.bin" ∈ (["bin", "obj"] : List String))
    ∧ ¬ (relStr ["bin", "x.bin"] ∈ (["bin", "obj"] : List String))
    ∧ resolve (Entry.dir [("bin", Entry.dir [("x.bin", Entry.file "X")]),
        ("Program.cs", Entry.file "P")]) ["bin", "x.bin"] = some (Entry.file "X")
    ∧ (copy_dir noFail "s" "d"
        (some (Entry.dir [("bin", Entry.dir [("x.bin", Entry.file "X")]),
          ("Program.cs", Entry.file "P")])) none (some ["bin", "obj"])).2
      = ["Copying: s"]
    ∧ resolveIn (copy_dir noFail "s" "d"
        (some (Entry.dir [("bin", Entry.dir [("x.bin", Entry.file "X")]),
          ("Program.cs", Entry.file "P")])) none (some ["bin", "obj"])).1
        ["bin", "x.bin"] = none := by
  have hl : copyListing noFail ["bin", "obj"] []
      [("bin", Entry.dir [("x.bin", Entry.file "X")]), ("Program.cs", Entry.file "P")]
      = ([("Program.cs", Entry.file "P")], []) := by
    simp [copyListing, ignoreHit, relStr, noFail]
  refine ⟨by decide, by decide, rfl, ?_, ?_⟩
  · rw [copy_dir_ok]
    rfl
  · rw [copy_dir_ok, hl]
    rfl

/-- Claim C2 (amended): after a successful `copy(src, dst, exclude)`
(environment without copy failures), every file of `src` none of whose path
components is skipped — at every depth neither the component's name nor its
relative path is a member of `exclude` — exists at the corresponding location
under `dst` with identical content; and every entry present anywhere under
`dst` has a name and a relative path absent from `exclude`. -/
theorem copy_dir_correct (exclude : List String) (src dst : String) (l : Listing) :
    (copy_dir noFail src dst (some (Entry.dir l)) none (some exclude)).2
      = ["Copying: " ++ src]
    ∧ (∀ (p : List String) (s : String),
        resolve (Entry.dir l) p = some (Entry.file s) →
        (∀ i (h : i < p.length), ignoreHit exclude (p.take i) p[i] = false) →
        resolveIn (copy_dir noFail src dst (some (Entry.dir l)) none
          (some exclude)).1 p = some (Entry.file s))
    ∧ (∀ (p : List String) (e : Entry) (hne : p ≠ []),
        resolveIn (copy_dir noFail src dst (some (Entry.dir l)) none
          (some exclude)).1 p = some e →
        ¬ p.getLast hne ∈ exclude ∧ ¬ relStr p ∈ exclude) := by
  rw [copy_dir_ok]
  refine ⟨rfl, ?_, ?_⟩
  · intro p s hres hskip
    have h := resolve_copyListing exclude p [] l s hres (by simpa using hskip)
    simpa [resolveIn] using h
  · intro p e hne hres
    have hall := copied_not_excluded noFail exclude p [] l e
      (by simpa [resolveIn] using hres)
    have hlen : p.length - 1 < p.length := by
      cases p with
      | nil => exact absurd rfl hne
      | cons a q => simp
    have hlast := hall (p.length - 1) hlen
    rw [List.nil_append, ← List.dropLast_eq_take, ← List.getLast_eq_getElem p hne]
      at hlast
    simp only [ignoreHit, Bool.or_eq_false_iff, decide_eq_false_iff_not] at hlast
    rw [List.dropLast_append_getLast hne] at hlast
    exact ⟨hlast.2, hlast.1⟩

/-- Claim C3: during the copy walk an entry is skipped exactly when its
literal name is a member of `exclude` or its `/`-joined path relative to
`src` is a member of `exclude`; consequently every copied entry is
non-excluded on both counts, and in the scenario
`exclude = {"sub/inner.txt"}` the top-level `inner.txt` is copied while
`sub/inner.txt` is skipped (its parent `sub` is still recreated). -/
theorem ignore_skips_iff :
    (∀ (exclude rel names : List String) (name : String), name ∈ names →
      (name ∈ ignore exclude rel names ↔
        name ∈ exclude ∨ relStr (rel ++ [name]) ∈ exclude))
    ∧ (∀ (failAt : List String → Bool) (exclude rel : List String) (l : Listing)
        (c : String × Entry), c ∈ (copyListing failAt exclude rel l).1 →
        ¬ c.1 ∈ exclude ∧ ¬ relStr (rel ++ [c.1]) ∈ exclude)
    ∧ copy_dir noFail "s" "d"
        (some (Entry.dir [("inner.txt", Entry.file "I"),
          ("sub", Entry.dir [("inner.txt", Entry.file "J")])]))
        none (some ["sub/inner.txt"])
      = (some (Entry.dir [("inner.txt", Entry.file "I"), ("sub", Entry.dir [])]),
        ["Copying: s"]) := by
  refine ⟨?_, ?_, ?_⟩
  · intro exclude rel names name h
    simp only [ignore, List.mem_filter, ignoreHit, Bool.or_eq_true,
      decide_eq_true_eq, h, true_and]
    exact or_comm
  · intro failAt exclude rel l c hc
    obtain ⟨e0, _, hhit, _⟩ := copyListing_mem failAt exclude rel l c hc
    simp only [ignoreHit, Bool.or_eq_false_iff, decide_eq_false_iff_not] at hhit
    exact ⟨hhit.2, hhit.1⟩
  · have hl : copyListing noFail ["sub/inner.txt"] []
        [("inner.txt", Entry.file "I"), ("sub", Entry.dir [("inner.txt", Entry.file "J")])]
        = ([("inner.txt", Entry.file "I"), ("sub", Entry.dir [])], []) := by
      simp [copyListing, ignoreHit, relStr, noFail]
    rw [copy_dir_ok, hl]
    rfl

/-- Claim C4: `copy_dir` catches every exception of the underlying copy:
whenever `copytree` raises a message `ex` — missing source, existing
destination, or per-file failures collected into one error — the caller sees
no exception (the function plainly returns a result), the log gains the line
`Failed to copy: {src};\n{ex}` naming the source path and the error message,
and the destination is whatever state the failed copy left behind. -/
theorem copy_dir_catches (failAt : List String → Bool) (src dst : String)
    (srcEntry dstEntry : Option Entry) (exclude : Option (List String)) (ex : String)
    (h : (copytree failAt (exclude.getD []) src dst srcEntry dstEntry).2 = some ex) :
    copy_dir failAt src dst srcEntry dstEntry exclude
      = ((copytree failAt (exclude.getD []) src dst srcEntry dstEntry).1,
        ["Copying: " ++ src, "Failed to copy: " ++ src ++ ";\n" ++ ex]) := by
  simp [copy_dir, h]

/-- Witness for C4 at a concrete failing input (missing source). -/
theorem copy_dir_catches_witness :
    copy_dir noFail "s" "d" none none none
      = (none, ["Copying: s",
        "Failed to copy: s;\n[Errno 2] No such file or directory: s"]) := by
  have h := copy_dir_catches noFail "s" "d" none none none
    (fileNotFoundMsg "s") rfl
  simpa [copytree, fileNotFoundMsg] using h

/-- Claim C5 as frozen fails: `clear` on a missing path is not a no-op —
`os.listdir` raises `FileNotFoundError` and nothing in `clear_dir`
catches it. -/
theorem clear_dir_missing_path_cex :
    (clear_dir (fun _ => false) none ["a.txt"]).1
      = Except.error "FileNotFoundError" := rfl

/-- Claim C5 (amended): `clear(path, keep)` on an existing directory with no
children is a no-op completing without error; but on a path that does not
exist, `os.listdir` raises `FileNotFoundError` and the exception propagates
to the caller. -/
theorem clear_dir_edge_cases (fail : String → Bool) (keep : List String) :
    clear_dir fail (some (Entry.dir [])) keep
      = (Except.ok (some (Entry.dir [])), [])
    ∧ clear_dir fail none keep = (Except.error "FileNotFoundError", []) :=
  ⟨rfl, rfl⟩

/-- Claim C6: copying from a nonexistent `src` propagates no exception, logs
a failure line naming `src`, and creates nothing at `dst`: `os.scandir(src)`
raises before `os.makedirs(dst)` runs, so the destination stays absent. -/
theorem copy_dir_missing_src (failAt : List String → Bool) (src dst : String)
    (exclude : Option (List String)) :
    copy_dir failAt src dst none none exclude
      = (none, ["Copying: " ++ src,
        "Failed to copy: " ++ src ++ ";\n" ++ fileNotFoundMsg src]) := rfl

/-- Claim C7: `copy` is not idempotent in `dst`: a first copy into a fresh
destination succeeds, and running the exact same copy again fails —
`os.makedirs(dst)` raises `FileExistsError`, the failure is logged, and no
fresh copy is performed (`dst` keeps exactly the tree the first call
installed). -/
theorem copy_dir_not_idempotent (exclude : Option (List String))
    (src dst : String) (l : Listing) :
    ∃ t : Entry,
      copy_dir noFail src dst (some (Entry.dir l)) none exclude
        = (some t, ["Copying: " ++ src])
      ∧ copy_dir noFail src dst (some (Entry.dir l)) (some t) exclude
        = (some t, ["Copying: " ++ src,
            "Failed to copy: " ++ src ++ ";\n" ++ fileExistsMsg dst]) := by
  refine ⟨Entry.dir (copyListing noFail (exclude.getD []) [] l).1, ?_, ?_⟩
  · have h := copyListing_errs_noFail (exclude.getD []) [] l
    simp [copy_dir, copytree, h]
  · simp [copy_dir, copytree]

/-- Claim C8: `clear(path, keep)` leaves every kept child untouched, its
entire subtree included: `os.listdir` lists only direct children, kept names
are filtered out before any deletion is attempted, and nothing below a kept
child is ever visited, so the kept pair survives with an identical subtree. -/
theorem clear_dir_keeps_children (fail : String → Bool) (children : Listing)
    (keep : List String) (name : String) (e : Entry)
    (hmem : (name, e) ∈ children) (hkeep : name ∈ keep) :
    ∃ rest : Listing,
      clear_dir fail (some (Entry.dir children)) keep
        = (Except.ok (some (Entry.dir rest)), [])
      ∧ (name, e) ∈ rest := by
  refine ⟨_, rfl, ?_⟩
  exact List.mem_filter.2 ⟨hmem, by simp [hkeep]⟩

/-- Witness for C8: the kept `a.txt` survives next to a deleted directory. -/
theorem clear_dir_keeps_children_witness :
    ∃ rest : Listing,
      clear_dir (fun _ => false)
        (some (Entry.dir [("a.txt", Entry.file "A"),
          ("sub", Entry.dir [("x", Entry.file "X")])]))
        ["a.txt"]
        = (Except.ok (some (Entry.dir rest)), [])
      ∧ ("a.txt", Entry.file "A") ∈ rest :=
  clear_dir_keeps_children (fun _ => false) _ ["a.txt"] "a.txt" (Entry.file "A")
    (by simp) (by simp)

/-- Claim C9: deletion is best-effort and silent: with an arbitrary failure
oracle (so any other child's deletion may fail), a non-kept directory child
whose own deletion succeeds is removed all the same, and `clear_dir` raises
no exception and prints nothing. -/
theorem clear_dir_best_effort (fail : String → Bool) (children : Listing)
    (keep : List String) (name : String) (cs : Listing)
    (hmem : (name, Entry.dir cs) ∈ children) (hkeep : ¬ name ∈ keep)
    (hok : fail name = false) :
    ∃ rest : Listing,
      clear_dir fail (some (Entry.dir children)) keep
        = (Except.ok (some (Entry.dir rest)), [])
      ∧ ¬ (name, Entry.dir cs) ∈ rest := by
  refine ⟨_, rfl, ?_⟩
  intro hmem2
  have h2 := (List.mem_filter.1 hmem2).2
  simp [rmtreeRemoves, hkeep, hok] at h2

/-- Witness for C9: deleting `a` fails, yet `b` is still removed, with no
exception and no output. -/
theorem clear_dir_best_effort_witness :
    ∃ rest : Listing,
      clear_dir (fun n => n == "a")
        (some (Entry.dir [("a", Entry.dir []), ("b", Entry.dir [])])) []
        = (Except.ok (some (Entry.dir rest)), [])
      ∧ ¬ ("b", Entry.dir []) ∈ rest :=
  clear_dir_best_effort (fun n => n == "a") _ [] "b" []
    (by simp) (by simp) (by decide)

/-- Claim C10: omitting `exclude` (the Python default `None`) behaves exactly
like the empty exclusion set — `set(exclude or [])` turns both into the empty
set, the `ignore` callback then skips nothing at any level, and no exception
arises from the missing argument. -/
theorem copy_dir_default_exclude (failAt : List String → Bool) (src dst : String)
    (srcEntry dstEntry : Option Entry) :
    copy_dir failAt src dst srcEntry dstEntry none
      = copy_dir failAt src dst srcEntry dstEntry (some [])
    ∧ ∀ (rel names : List String), ignore [] rel names = [] := by
  refine ⟨rfl, ?_⟩
  intro rel names
  simp [ignore, ignoreHit]

end UpdateList
